import Mathlib

/-
Verification of the email-reader message-normalization core.

Shallow embedding of `src/email_parser/decoder.py`, `src/email_parser/parser.py`
and `src/email_parser/types.py`.  Bytes are modelled as `List Nat` (each entry a
byte value), Python strings as Lean `String` / `List Char`, `None` as `Option`.
Behaviour delegated to the Python standard library that is itself an external
collaborator (codec registry, RFC 2047 encoded-word splitting, date parsing,
`getaddresses`, the RFC822 MIME parser) is abstracted into a `PyEnv` record of
functions; everything written in the repository itself is translated directly.
-/

/-! ## Byte/char basics -/

/-- Number of bytes the UTF-8 encoding of a character occupies
(`str.encode()` in Python encodes to UTF-8). -/
def utf8Len (c : Char) : Nat :=
  if c.toNat < 128 then 1
  else if c.toNat < 2048 then 2
  else if c.toNat < 65536 then 3
  else 4

/-- Python `str.lower()` restricted to ASCII letters (header names and
disposition values in scope here are ASCII). -/
def pyLowerChar (c : Char) : Char :=
  if 65 ≤ c.toNat ∧ c.toNat ≤ 90 then Char.ofNat (c.toNat + 32) else c

def pyLowerStr (s : String) : String :=
  String.mk (s.toList.map pyLowerChar)

/-- Python whitespace set used by `str.strip()` / truthiness of `str.strip()`
(ASCII and Latin-1 range whitespace plus the Unicode space code points). -/
def pyIsSpace (c : Char) : Bool :=
  c.toNat ∈ [9, 10, 11, 12, 13, 28, 29, 30, 31, 32, 133, 160,
    5760, 8192, 8193, 8194, 8195, 8196, 8197, 8198, 8199, 8200,
    8201, 8202, 8232, 8233, 8239, 8287, 12288]

/-- Python `str.strip()` with no argument. -/
def pyStripChars (l : List Char) : List Char :=
  ((l.dropWhile pyIsSpace).reverse.dropWhile pyIsSpace).reverse

def pyStripStr (s : String) : String :=
  String.mk (pyStripChars s.toList)

/-- Python `str.strip("<>")`. -/
def stripAngles (s : String) : String :=
  String.mk (((s.toList.dropWhile (fun c => c = '<' ∨ c = '>')).reverse.dropWhile
    (fun c => c = '<' ∨ c = '>')).reverse)

/-- `needle` matches at the head of `hay`. -/
def prefixMatches : List Char → List Char → Bool
  | [], _ => true
  | _ :: _, [] => false
  | a :: as, b :: bs => a == b && prefixMatches as bs

/-- Python `needle in hay` for strings: contiguous substring test. -/
def sublistContains (needle : List Char) : List Char → Bool
  | [] => needle.isEmpty
  | l@(_ :: rest) => prefixMatches needle l || sublistContains needle rest

def strContainsSub (needle hay : String) : Bool :=
  sublistContains needle.toList hay.toList

/-- Python `s.startswith(pre)`. -/
def pyStartsWith (s pre : String) : Bool :=
  prefixMatches pre.toList s.toList

/-- All characters ASCII, i.e. Python `s.encode('ascii')` succeeds. -/
def allAscii (s : String) : Bool :=
  s.toList.all (fun c => c.toNat < 128)

/-- First `some` in a list of options (models a `for`/`try` chain that
returns at the first success). -/
def firstSome {α : Type} : List (Option α) → Option α
  | [] => none
  | some x :: _ => some x
  | none :: rest => firstSome rest

/-! ## URL-safe base64 (`decoder.b64url_decode`)

`base64.urlsafe_b64decode` translates `-`/`_` to `+`/`/` and calls
`binascii.a2b_base64` in non-strict mode, which *discards* characters outside
the base64 alphabet, treats `=` after at least two quad characters as
terminating padding, and errors out when the input ends mid-quad.  The state
machine below is a direct translation of CPython `Modules/binascii.c`
(`quad_pos`, `leftchar`, `pads`). -/

/-- Value of one base64 character under `urlsafe_b64decode`
(standard alphabet plus `-`/`_` aliases for 62/63); `none` = discarded. -/
def decodeChar (c : Char) : Option Nat :=
  let n := c.toNat
  if 65 ≤ n ∧ n ≤ 90 then some (n - 65)
  else if 97 ≤ n ∧ n ≤ 122 then some (n - 97 + 26)
  else if 48 ≤ n ∧ n ≤ 57 then some (n - 48 + 52)
  else if n = 43 ∨ n = 45 then some 62
  else if n = 47 ∨ n = 95 then some 63
  else none

/-- `binascii.a2b_base64` (non-strict).  Arguments: remaining input,
`quad_pos`, `leftchar`, `pads`.  `none` models the `binascii.Error` raised
for a dangling quad at end of input. -/
def a2b : List Char → Nat → Nat → Nat → Option (List Nat)
  | [], qp, _, _ => if qp = 0 then some [] else none
  | c :: rest, qp, lc, pads =>
    if c = '=' then
      if 2 ≤ qp then
        if 4 ≤ qp + pads + 1 then some []
        else a2b rest qp lc (pads + 1)
      else a2b rest qp lc pads
    else
      match decodeChar c with
      | none => a2b rest qp lc pads
      | some v =>
        match qp with
        | 0 => a2b rest 1 v 0
        | 1 => (a2b rest 2 (v % 16) 0).map (fun bs => (lc * 4 + v / 16) :: bs)
        | 2 => (a2b rest 3 (v % 4) 0).map (fun bs => (lc * 16 + v / 4) :: bs)
        | _ => (a2b rest 0 0 0).map (fun bs => (lc * 64 + v) :: bs)

/-- `decoder.b64url_decode`: empty input short-circuits; otherwise the pad
deficit of the UTF-8 byte length modulo 4 is appended as `=` and the result
of a decode failure is `b""`. -/
def b64url_decode (s : List Char) : List Nat :=
  if s.isEmpty then []
  else
    let raw := s ++ List.replicate ((4 - (s.map utf8Len).sum % 4) % 4) '='
    match a2b raw 0 0 0 with
    | some bs => bs
    | none => []

/-- The URL-safe base64 alphabet in index order. -/
def b64chars : List Char :=
  ['A', 'B', 'C', 'D', 'E', 'F', 'G', 'H', 'I', 'J', 'K', 'L', 'M',
   'N', 'O', 'P', 'Q', 'R', 'S', 'T', 'U', 'V', 'W', 'X', 'Y', 'Z',
   'a', 'b', 'c', 'd', 'e', 'f', 'g', 'h', 'i', 'j', 'k', 'l', 'm',
   'n', 'o', 'p', 'q', 'r', 's', 't', 'u', 'v', 'w', 'x', 'y', 'z',
   '0', '1', '2', '3', '4', '5', '6', '7', '8', '9', '-', '_']

def b64alpha (v : Nat) : Char := b64chars.getD v 'A'

/-- One full 3-byte chunk of the URL-safe base64 encoding. -/
def encode3 (a b c : Nat) : List Char :=
  [b64alpha (a / 4), b64alpha (a % 4 * 16 + b / 16),
   b64alpha (b % 16 * 4 + c / 64), b64alpha (c % 64)]

/-- URL-safe base64 encoding of a byte sequence with the trailing `=`
padding stripped (the form Gmail hands to `b64url_decode`). -/
def b64urlEncodeStripped : List Nat → List Char
  | [] => []
  | [a] => [b64alpha (a / 4), b64alpha (a % 4 * 16)]
  | [a, b] => [b64alpha (a / 4), b64alpha (a % 4 * 16 + b / 16), b64alpha (b % 16 * 4)]
  | a :: b :: c :: rest => encode3 a b c ++ b64urlEncodeStripped rest

/-- Decider for "is the padding-stripped URL-safe base64 encoding of some
byte sequence": every character in the URL-safe alphabet, length not 1 mod 4,
and the unused low bits of a trailing partial quad are zero. -/
def isValidStripped : List Char → Bool
  | [] => true
  | [c1, c2] => b64chars.contains c1 && b64chars.contains c2 &&
      (decodeChar c2).getD 0 % 16 == 0
  | [c1, c2, c3] => b64chars.contains c1 && b64chars.contains c2 &&
      b64chars.contains c3 && (decodeChar c3).getD 0 % 4 == 0
  | c1 :: c2 :: c3 :: c4 :: rest => b64chars.contains c1 && b64chars.contains c2 &&
      b64chars.contains c3 && b64chars.contains c4 && isValidStripped rest
  | _ => false

/-! ## RFC 2047 encoded-word detection (`email.header.decode_header` guard)

`decode_header` returns `[(header, None)]` unchanged whenever the regular
expression for encoded words finds no match.  The functions below decide
whether that expression matches anywhere in the value. -/

def isQB (c : Char) : Bool := c = 'q' || c = 'Q' || c = 'b' || c = 'B'

/-- Does the encoded-text-plus-terminator portion match, i.e. some run of
non-newline characters followed by the two characters `?=`. -/
def ecreTail : List Char → Bool
  | '?' :: '=' :: _ => true
  | '\n' :: _ => false
  | _ :: rest => ecreTail rest
  | [] => false

/-- After a leading `=?`: a charset without `?`, then `?`, an encoding
letter, `?`, and a matching tail. -/
def ecreAfterCharset (l : List Char) : Bool :=
  match l.dropWhile (fun c => c ≠ '?') with
  | '?' :: e :: '?' :: rest => isQB e && ecreTail rest
  | _ => false

def ecreAt : List Char → Bool
  | '=' :: '?' :: rest => ecreAfterCharset rest
  | _ => false

/-- The encoded-word pattern matches somewhere in the string. -/
def containsEcre : List Char → Bool
  | [] => false
  | l@(_ :: rest) => ecreAt l || containsEcre rest

/-! ## MIME parts as delivered by the two input contracts -/

/-- One leaf produced by `email.message_from_bytes(...).walk()` as consumed
by `_parse_raw`: the fields of the stdlib `Message` object the code reads. -/
structure RawPart where
  is_multipart : Bool
  content_type : String
  content_id : Option String
  filename : Option String
  content_disposition : Option String
  payload : Option (List Nat)
  charset : Option String
deriving DecidableEq

/-- The parsed RFC822 object: header items plus the `walk()` sequence. -/
structure RawEmailMsg where
  items : List (String × String)
  parts : List RawPart
deriving DecidableEq

/-- External behaviour delegated to the Python runtime/stdlib, supplied as
an explicit environment:
* `decodeReplace enc bytes` — `bytes.decode(enc, errors="replace")`;
  `none` models the lookup failing (unknown codec) with an exception;
* `decodeEW` — `email.header.decode_header` on a value that does contain
  the encoded-word pattern (`none` = the call raising, e.g. a base64 error);
  segments are literal strings (`Sum.inl`) or undecoded bytes with an
  optional charset (`Sum.inr`);
* `parseDateIso` — `parsedate_to_datetime(s).isoformat()`; `none` = raise;
* `getaddresses` — `email.utils.getaddresses([value])`;
* `headerEncode` — `Charset(charset).header_encode` used by `formataddr`
  for non-ASCII display names;
* `mimeParse` — `email.message_from_bytes`. -/
structure PyEnv where
  decodeReplace : String → List Nat → Option String
  decodeEW : String → Option (List (Sum String (List Nat) × Option String))
  parseDateIso : String → Option String
  getaddresses : String → List (String × String)
  headerEncode : String → String
  mimeParse : List Nat → RawEmailMsg

/-- Join loop of `decode_header_str`: bytes segments are decoded with the
declared (or default utf-8) charset, falling back to utf-8 with
replacement when that raises. -/
def joinSegments (E : PyEnv) (ps : List (Sum String (List Nat) × Option String)) : String :=
  ps.foldl (fun acc seg =>
    acc ++ match seg.1 with
    | Sum.inl s => s
    | Sum.inr bs =>
      let enc := match seg.2 with
        | some c => if c = "" then "utf-8" else c
        | none => "utf-8"
      match E.decodeReplace enc bs with
      | some s => s
      | none => (E.decodeReplace "utf-8" bs).getD "") ""

/-- `decoder.decode_header_str` (restricted to the `str | None` inputs the
parser passes it; the `bytes` overload is never exercised there). -/
def decode_header_str (E : PyEnv) : Option String → String
  | none => ""
  | some v =>
    if containsEcre v.toList then
      match E.decodeEW v with
      | some ps => joinSegments E ps
      | none => v
    else v

/-! ## `email.utils.formataddr` and `decoder.parse_addr_list` -/

/-- Characters of `specialsre` in `email/utils.py`. -/
def isSpecialChar (c : Char) : Bool :=
  c = '[' || c = ']' || c = '\\' || c = '(' || c = ')' || c = '<' || c = '>' ||
  c = '@' || c = ',' || c = ':' || c = ';' || c = '"' || c = '.'

/-- `escapesre.sub`: backslash-escape `\` and `"`. -/
def escapeName : List Char → List Char
  | [] => []
  | c :: rest => (if c = '\\' ∨ c = '"' then ['\\', c] else [c]) ++ escapeName rest

/-- `email.utils.formataddr`; `none` models the `UnicodeEncodeError` raised
when the address is not pure ASCII. -/
def formataddr (E : PyEnv) (name addr : String) : Option String :=
  if ¬ allAscii addr then none
  else if name ≠ "" then
    if ¬ allAscii name then some (E.headerEncode name ++ " <" ++ addr ++ ">")
    else
      let q := if name.toList.any isSpecialChar then "\x22" else ""
      some (q ++ String.mk (escapeName name.toList) ++ q ++ " <" ++ addr ++ ">")
  else some addr

/-- The `for name, addr in getaddresses([value])` loop body of
`parse_addr_list`; `none` propagates the `formataddr` exception. -/
def addrLoop (E : PyEnv) : List (String × String) → Option (List String)
  | [] => some []
  | (name, addr) :: rest =>
    let addr := pyStripStr addr
    if addr = "" then addrLoop E rest
    else
      let cleanName := pyStripStr (decode_header_str E (some name))
      match formataddr E cleanName addr with
      | none => none
      | some f => (addrLoop E rest).map (fun l => pyStripStr f :: l)

/-- `decoder.parse_addr_list`. -/
def parse_addr_list (E : PyEnv) (value : Option String) : Option (List String) :=
  match value with
  | none => some []
  | some v => if v = "" then some [] else addrLoop E (E.getaddresses v)

/-! ## Charset extraction and text decoding (`parser._charset_from`,
`parser._decode_to_text`) -/

def isCsetChar (c : Char) : Bool :=
  (65 ≤ c.toNat && c.toNat ≤ 90) || (97 ≤ c.toNat && c.toNat ≤ 122) ||
  (48 ≤ c.toNat && c.toNat ≤ 57) || c = '_' || c = '-'

/-- Case-insensitive match of the literal `charset=` at the head. -/
def charsetKeyAt : List Char → Option (List Char)
  | c1 :: c2 :: c3 :: c4 :: c5 :: c6 :: c7 :: c8 :: rest =>
    if pyLowerChar c1 = 'c' ∧ pyLowerChar c2 = 'h' ∧ pyLowerChar c3 = 'a' ∧
       pyLowerChar c4 = 'r' ∧ pyLowerChar c5 = 's' ∧ pyLowerChar c6 = 'e' ∧
       pyLowerChar c7 = 't' ∧ c8 = '=' then some rest else none
  | _ => none

/-- Try the pattern at this position: optional quote, then a non-empty run
of charset characters. -/
def matchCharsetAt (l : List Char) : Option String :=
  match charsetKeyAt l with
  | none => none
  | some rest =>
    let rest := match rest with
      | '"' :: t => t
      | _ => rest
    let run := rest.takeWhile isCsetChar
    if run.isEmpty then none else some (String.mk run)

/-- Leftmost regex search for the `charset` parameter. -/
def searchCharset : List Char → Option String
  | [] => none
  | l@(_ :: rest) =>
    match matchCharsetAt l with
    | some r => some r
    | none => searchCharset rest

/-- `parser._charset_from` (`None`/empty content-type handled by the
callers passing `""` for an absent value). -/
def _charset_from (ct : String) : Option String :=
  if ct = "" then none else searchCharset ct.toList

/-- The `try`-chain of `parser._decode_to_text`: declared charset (if any),
then utf-8, then latin-1, then the trailing unconditional utf-8 decode.
`none` only when every one of these raises (impossible in CPython, where
utf-8 with replacement never fails). -/
def decodeToTextOpt (E : PyEnv) (b : List Nat) (charset : Option String) : Option String :=
  (firstSome (((match charset with | some c => [c] | none => []) ++
      ["utf-8", "latin-1"]).map (fun enc => E.decodeReplace enc b))).orElse
    (fun _ => E.decodeReplace "utf-8" b)

/-- `parser._decode_to_text` as used by the walkers (total; the `.getD ""`
is unreachable whenever utf-8-with-replacement succeeds, which it always
does in CPython). -/
def _decode_to_text (E : PyEnv) (b : List Nat) (charset : Option String) : String :=
  (decodeToTextOpt E b charset).getD ""

/-! ## Body selection (`parser._best`) -/

/-- Python `max(items, key=len)`: first element of maximal length. -/
def maxByLen (x : String) (xs : List String) : String :=
  xs.foldl (fun acc i => if acc.length < i.length then i else acc) x

/-- Truthiness filter `i and i.strip()` of `_best`: keep a candidate iff it
is non-empty and not whitespace-only. -/
def bodyKeep (i : String) : Bool :=
  !(i == "") && !(pyStripStr i == "")

/-- `parser._best`: drop falsy / whitespace-only candidates, then the
longest survivor (first seen wins ties); empty string when none remain. -/
def _best (items : List String) : String :=
  match items.filter bodyKeep with
  | [] => ""
  | x :: xs => maxByLen x xs

/-! ## Structured (FULL format) input and output records
(`types.py`, `parser._parse_full`, `parser._walk_parts`) -/

/-- Lookup in a dict built by a comprehension over an association list:
later entries override earlier ones (`None` = key absent). -/
def dictGet (m : List (String × String)) (k : String) : Option String :=
  (m.reverse.find? (fun kv => kv.1 == k)).map (fun kv => kv.2)

/-- `body` object of one Gmail payload part. -/
structure GmailBody where
  data : Option String := none
  attachmentId : Option String := none
  size : Option Nat := none
deriving DecidableEq

/-- One node of the Gmail `payload` tree.  Header entries are the
`{name, value}` pairs of the JSON (entries with null/absent fields are out
of scope of the claims and not modelled). -/
inductive GmailPart : Type
  | mk (mimeType : Option String) (filename : Option String)
       (headers : List (String × String)) (body : GmailBody)
       (parts : List GmailPart)

def GmailPart.mimeType : GmailPart → Option String
  | .mk m _ _ _ _ => m

def GmailPart.filename : GmailPart → Option String
  | .mk _ f _ _ _ => f

def GmailPart.headers : GmailPart → List (String × String)
  | .mk _ _ h _ _ => h

def GmailPart.body : GmailPart → GmailBody
  | .mk _ _ _ b _ => b

def GmailPart.parts : GmailPart → List GmailPart
  | .mk _ _ _ _ ps => ps

/-- The empty part (`msg.get("payload", {}) or {}` when absent). -/
def GmailPart.empty : GmailPart := .mk none none [] {} []

/-- The message dict handed to `parse_message`. -/
structure GmailMsg where
  id : Option String := none
  threadId : Option String := none
  payload : Option GmailPart := none
  raw : Option String := none

mutual

/-- `parser._walk_parts`: the stack-based flattening visits the root first,
then each child subtree with the children in reverse order (the Python code
pushes children onto a stack and pops from its end). -/
def _walk_parts : GmailPart → List GmailPart
  | .mk m f h b ps => .mk m f h b ps :: walkChildren ps

def walkChildren : List GmailPart → List GmailPart
  | [] => []
  | c :: cs => walkChildren cs ++ _walk_parts c

end

/-- `types.Attachment`. -/
structure Attachment where
  filename : String := ""
  mime_type : String := "application/octet-stream"
  content_id : Option String := none
  size : Option Nat := none
  data : Option (List Nat) := none
  attachment_id : Option String := none
deriving DecidableEq

/-- `types.ParsedEmail`. -/
structure ParsedEmail where
  message_id : String
  thread_id : String
  subject : String
  from_ : String
  «to» : List String := []
  cc : List String := []
  bcc : List String := []
  date : Option String := none
  text : String := ""
  html : String := ""
  headers : List (String × String) := []
  attachments : List Attachment := []
deriving DecidableEq

/-! ### Per-part computations of the `_parse_full` loop body -/

/-- Per-part header map, names case-folded. -/
def partHeaders (p : GmailPart) : List (String × String) :=
  p.headers.map (fun kv => (pyLowerStr kv.1, kv.2))

/-- `mime = part.get("mimeType", "") or ""`. -/
def partMime (p : GmailPart) : String :=
  p.mimeType.getD ""

/-- `data = b64url_decode(body["data"]) if "data" in body and body["data"] else b""`. -/
def partData (p : GmailPart) : List Nat :=
  match p.body.data with
  | some d => if d = "" then [] else b64url_decode d.toList
  | none => []

/-- `filename = part.get("filename") or ""`. -/
def partFilename (p : GmailPart) : String :=
  p.filename.getD ""

/-- `disp = p_headers.get("content-disposition", "").lower()`. -/
def partDisp (p : GmailPart) : String :=
  pyLowerStr ((dictGet (partHeaders p) "content-disposition").getD "")

/-- `cid = (p_headers.get("content-id") or "").strip("<>") or None`. -/
def partCid (p : GmailPart) : Option String :=
  let s := stripAngles ((dictGet (partHeaders p) "content-id").getD "")
  if s = "" then none else some s

/-- `charset = _charset_from(p_headers.get("content-type", "") or mime)`. -/
def partCharset (p : GmailPart) : Option String :=
  let ct := (dictGet (partHeaders p) "content-type").getD ""
  _charset_from (if ct = "" then partMime p else ct)

/-- The attachment test of `_parse_full`:
`filename or "attachment" in disp or body.get("attachmentId")`. -/
def isAttFull (p : GmailPart) : Bool :=
  partFilename p != "" || strContainsSub "attachment" (partDisp p) ||
    p.body.attachmentId.getD "" != ""

/-- The `Attachment(...)` record built by `_parse_full`. -/
def mkAttFull (E : PyEnv) (p : GmailPart) : Attachment :=
  { filename := decode_header_str E (some (partFilename p))
    mime_type :=
      if partMime p ≠ "" then partMime p
      else
        let ct := (dictGet (partHeaders p) "content-type").getD ""
        if ct ≠ "" then ct else "application/octet-stream"
    content_id := partCid p
    size := p.body.size
    data := if partData p = [] then none else some (partData p)
    attachment_id := p.body.attachmentId }

/-- Outcome of one iteration of a walker loop. -/
inductive PartClass : Type
  | att (a : Attachment)
  | text (s : String)
  | html (s : String)
  | skip
deriving DecidableEq

/-- Loop body of `_parse_full` over one flattened part. -/
def classifyFull (E : PyEnv) (p : GmailPart) : PartClass :=
  if isAttFull p then .att (mkAttFull E p)
  else if pyStartsWith (partMime p) "text/plain" then
    .text (_decode_to_text E (partData p) (partCharset p))
  else if pyStartsWith (partMime p) "text/html" then
    .html (_decode_to_text E (partData p) (partCharset p))
  else .skip

/-- Appending one classified part to the three accumulator lists. -/
def stepClass (st : List String × List String × List Attachment) (c : PartClass) :
    List String × List String × List Attachment :=
  match c with
  | .att a => (st.1, st.2.1, st.2.2 ++ [a])
  | .text s => (st.1 ++ [s], st.2.1, st.2.2)
  | .html s => (st.1, st.2.1 ++ [s], st.2.2)
  | .skip => st

/-- The `texts`/`htmls`/`atts` lists accumulated by a walker loop. -/
def collectParts (cs : List PartClass) : List String × List String × List Attachment :=
  cs.foldl stepClass ([], [], [])

/-- Header map of `_parse_full` (payload headers, names case-folded,
last write wins on lookup). -/
def fullHeaders (msg : GmailMsg) : List (String × String) :=
  (msg.payload.getD GmailPart.empty).headers.map (fun kv => (pyLowerStr kv.1, kv.2))

/-- Decoded Date header of the FULL path (absent header decodes to `""`). -/
def fullDateHdr (E : PyEnv) (msg : GmailMsg) : String :=
  decode_header_str E (dictGet (fullHeaders msg) "date")

/-- The `date_iso` computation of `_parse_full`: `None` stays when the
decoded header is falsy, the `except` branch keeps the raw decoded string
(`date_hdr or None`). -/
def fullDate (E : PyEnv) (msg : GmailMsg) : Option String :=
  let dateHdr := fullDateHdr E msg
  if dateHdr = "" then none
  else
    match E.parseDateIso dateHdr with
    | some iso => some iso
    | none => some dateHdr

/-- Classification outcomes of the flattened part walk of `_parse_full`. -/
def fullClasses (E : PyEnv) (msg : GmailMsg) : List PartClass :=
  (_walk_parts (msg.payload.getD GmailPart.empty)).map (classifyFull E)

/-- The `ParsedEmail(...)` record assembled by `_parse_full` once the
address lists are known. -/
def fullResult (E : PyEnv) (msg : GmailMsg) (to_ cc bcc : List String) : ParsedEmail :=
  let st := collectParts (fullClasses E msg)
  { message_id := msg.id.getD ""
    thread_id := msg.threadId.getD ""
    subject := decode_header_str E (dictGet (fullHeaders msg) "subject")
    from_ := decode_header_str E (dictGet (fullHeaders msg) "from")
    «to» := to_, cc := cc, bcc := bcc
    date := fullDate E msg
    text := _best st.1
    html := _best st.2.1
    headers := fullHeaders msg
    attachments := st.2.2 }

/-- `parser._parse_full`.  `none` models the only uncaught exception in the
function: `formataddr` raising on a non-ASCII address inside
`parse_addr_list`. -/
def _parse_full (E : PyEnv) (msg : GmailMsg) : Option ParsedEmail := do
  let to_ ← parse_addr_list E (some (decode_header_str E (dictGet (fullHeaders msg) "to")))
  let cc ← parse_addr_list E (some (decode_header_str E (dictGet (fullHeaders msg) "cc")))
  let bcc ← parse_addr_list E (some (decode_header_str E (dictGet (fullHeaders msg) "bcc")))
  pure (fullResult E msg to_ cc bcc)

/-! ## RAW format path (`parser._parse_raw`) -/

/-- Header dict of `_parse_raw`: names case-folded, values decoded. -/
def rawHeaders (E : PyEnv) (em : RawEmailMsg) : List (String × String) :=
  em.items.map (fun kv => (pyLowerStr kv.1, decode_header_str E (some kv.2)))

/-- `fn = part.get_filename() or ""`. -/
def rawFilename (p : RawPart) : String :=
  p.filename.getD ""

/-- `disp = (part.get("Content-Disposition") or "").lower()`. -/
def rawDisp (p : RawPart) : String :=
  pyLowerStr (p.content_disposition.getD "")

/-- `payload = part.get_payload(decode=True) or b""`. -/
def rawPayload (p : RawPart) : List Nat :=
  p.payload.getD []

/-- `cid = (part.get("Content-ID") or "").strip("<>") or None`. -/
def rawCid (p : RawPart) : Option String :=
  let s := stripAngles (p.content_id.getD "")
  if s = "" then none else some s

/-- The attachment test of `_parse_raw`: `fn or "attachment" in disp`. -/
def isAttRaw (p : RawPart) : Bool :=
  rawFilename p != "" || strContainsSub "attachment" (rawDisp p)

/-- The `Attachment(...)` record built by `_parse_raw`. -/
def mkAttRaw (E : PyEnv) (p : RawPart) : Attachment :=
  { filename := decode_header_str E (some (rawFilename p))
    mime_type := p.content_type
    content_id := rawCid p
    size := if rawPayload p = [] then none else some (rawPayload p).length
    data := some (rawPayload p)
    attachment_id := none }

/-- Loop body of `_parse_raw` over one walked part (multipart containers
are skipped). -/
def classifyRaw (E : PyEnv) (p : RawPart) : PartClass :=
  if p.is_multipart then .skip
  else if isAttRaw p then .att (mkAttRaw E p)
  else if pyStartsWith p.content_type "text/plain" then
    .text (_decode_to_text E (rawPayload p) p.charset)
  else if pyStartsWith p.content_type "text/html" then
    .html (_decode_to_text E (rawPayload p) p.charset)
  else .skip

/-- `em = message_from_bytes(b64url_decode(msg.get("raw", "")))`. -/
def rawEmOf (E : PyEnv) (msg : GmailMsg) : RawEmailMsg :=
  E.mimeParse (b64url_decode (msg.raw.getD "").toList)

/-- The `date_iso` computation of `_parse_raw`: the guard is the truthiness
of `headers.get("date")`, the `except` branch stores `headers.get("date")`
itself. -/
def rawDate (E : PyEnv) (em : RawEmailMsg) : Option String :=
  match dictGet (rawHeaders E em) "date" with
  | none => none
  | some d =>
    if d = "" then none
    else
      match E.parseDateIso d with
      | some iso => some iso
      | none => some d

/-- Classification outcomes of the `em.walk()` loop of `_parse_raw`. -/
def rawClasses (E : PyEnv) (em : RawEmailMsg) : List PartClass :=
  em.parts.map (classifyRaw E)

/-- The `ParsedEmail(...)` record assembled by `_parse_raw` once the
address lists are known. -/
def rawResult (E : PyEnv) (msg : GmailMsg) (to_ cc bcc : List String) : ParsedEmail :=
  let em := rawEmOf E msg
  let st := collectParts (rawClasses E em)
  { message_id := msg.id.getD ""
    thread_id := msg.threadId.getD ""
    subject := (dictGet (rawHeaders E em) "subject").getD ""
    from_ := (dictGet (rawHeaders E em) "from").getD ""
    «to» := to_, cc := cc, bcc := bcc
    date := rawDate E em
    text := _best st.1
    html := _best st.2.1
    headers := rawHeaders E em
    attachments := st.2.2 }

/-- `parser._parse_raw`.  The stdlib `message_from_bytes` is the abstract
`E.mimeParse`; `none` again models `formataddr` raising. -/
def _parse_raw (E : PyEnv) (msg : GmailMsg) : Option ParsedEmail := do
  let to_ ← parse_addr_list E (dictGet (rawHeaders E (rawEmOf E msg)) "to")
  let cc ← parse_addr_list E (dictGet (rawHeaders E (rawEmOf E msg)) "cc")
  let bcc ← parse_addr_list E (dictGet (rawHeaders E (rawEmOf E msg)) "bcc")
  pure (rawResult E msg to_ cc bcc)

/-- `parser.parse_message`: raw path only when `prefer_raw` is set AND the
dict has a `"raw"` key (key presence, not truthiness). -/
def parse_message (E : PyEnv) (msg : GmailMsg) (prefer_raw : Bool := false) :
    Option ParsedEmail :=
  if prefer_raw ∧ msg.raw.isSome then _parse_raw E msg else _parse_full E msg

/-! ## Projections of classification outcomes -/

def textOf : PartClass → Option String
  | .text s => some s
  | _ => none

def htmlOf : PartClass → Option String
  | .html s => some s
  | _ => none

def attOf : PartClass → Option Attachment
  | .att a => some a
  | _ => none

/-- Claim C6 and the spec word the date rule as: ISO rendering when the
header parses, the raw decoded header string when parsing fails, absent
when there is no Date header.  This is that wording as a function, used to
compare against what the code computes. -/
def dateRuleClaim (parse : String → Option String) (hdr : Option String) : Option String :=
  match hdr with
  | none => none
  | some h =>
    match parse h with
    | some iso => some iso
    | none => some h

/-! ## Concrete environments and inputs for witnesses and counterexamples -/

/-- Latin-1 style rendering of bytes, a convenient concrete stand-in for
`bytes.decode` in the sample environment. -/
def latin1Str (bs : List Nat) : String :=
  String.mk (bs.map Char.ofNat)

/-- A raw-path leaf carrying a filename and some payload bytes. -/
def rawAttPart0 : RawPart :=
  { is_multipart := false, content_type := "application/pdf",
    content_id := none, filename := some "f.pdf",
    content_disposition := some "attachment",
    payload := some [1, 2, 3], charset := none }

/-- A raw-path text/plain leaf. -/
def rawTextPart0 : RawPart :=
  { is_multipart := false, content_type := "text/plain",
    content_id := none, filename := none, content_disposition := none,
    payload := some [72, 105], charset := none }

/-- A concrete parsed RFC822 message: one attachment leaf and one
text/plain leaf. -/
def rawEm0 : RawEmailMsg :=
  { items := [("Subject", "Welcome"), ("Date", "bogus-date")]
    parts := [rawAttPart0, rawTextPart0] }

/-- A sample environment agreeing with CPython on the inputs exercised
below: utf-8/latin-1 always decode, other codecs are unknown;
`getaddresses` is tabulated on the two header values used
(CPython: `getaddresses(["é@example.com"])` gives `[("", "é@example.com")]`,
`getaddresses(["Alice <alice@example.com>"])` gives
`[("Alice", "alice@example.com")]`); no date string parses. -/
def pyEnv0 : PyEnv :=
  { decodeReplace := fun enc bs =>
      if enc = "utf-8" ∨ enc = "latin-1" then some (latin1Str bs) else none
    decodeEW := fun _ => none
    parseDateIso := fun _ => none
    getaddresses := fun v =>
      if v = "é@example.com" then [("", "é@example.com")]
      else if v = "Alice <alice@example.com>" then [("Alice", "alice@example.com")]
      else []
    headerEncode := fun s => s
    mimeParse := fun _ => rawEm0 }

/-- A part with a filename but neither inline data nor an attachmentId. -/
def attPartNoBody : GmailPart :=
  .mk (some "application/pdf") (some "x.pdf") [] {} []

/-- Structured message whose only attachment part carries no body at all. -/
def msgFileOnly : GmailMsg :=
  { id := some "m1", threadId := some "t1"
    payload := some (.mk (some "multipart/mixed") none [] {} [attPartNoBody]) }

/-- Structured message with an empty Date header value. -/
def msgDateEmpty : GmailMsg :=
  { id := some "m2", threadId := some "t2"
    payload := some (.mk (some "text/plain") none [("Date", "")] {} []) }

/-- Structured message whose To header is a bare non-ASCII address. -/
def msgAddr : GmailMsg :=
  { id := some "m3", threadId := some "t3"
    payload := some (.mk (some "text/plain") none [("To", "é@example.com")] {} []) }

/-- A text/plain body part with inline base64 data. -/
def witTextPart : GmailPart :=
  .mk (some "text/plain") none [] { data := some "SGk" } []

/-- A part classified as attachment through its disposition header,
carrying a remote attachmentId. -/
def witAttPart : GmailPart :=
  .mk (some "application/pdf") none
    [("Content-Disposition", "attachment; filename=x")]
    { attachmentId := some "ATT1", size := some 1234 } []

/-- Structured message used by witnesses: unparseable Date header, one
text/plain body part, one part with an attachmentId. -/
def msgWit : GmailMsg :=
  { id := some "m4", threadId := some "t4"
    payload := some (.mk (some "multipart/mixed") none
      [("Date", "bogus-date"), ("To", "Alice <alice@example.com>")] {}
      [witTextPart, witAttPart]) }

/-- Raw-format envelope (the raw value itself is irrelevant to the sample
parser, which is a constant function). -/
def msgRawWit : GmailMsg :=
  { id := some "m5", threadId := some "t5", raw := some "x" }

/-- A multipart container that nevertheless carries a filename and an
`attachment` disposition (crafted, but producible by a real message). -/
def multiPart0 : RawPart :=
  { is_multipart := true, content_type := "multipart/mixed"
    content_id := none, filename := some "evil.bin"
    content_disposition := some "attachment; filename=evil.bin"
    payload := none, charset := none }

def rawEmMulti : RawEmailMsg := { items := [], parts := [multiPart0] }

/-- Environment whose MIME parser yields `rawEmMulti`. -/
def envMulti : PyEnv :=
  { pyEnv0 with mimeParse := fun _ => rawEmMulti }


/-! # Theorems -/

/-! ## Base64 machine lemmas -/

theorem b64alpha_default (v : Nat) (h : ¬ v < 64) : b64alpha v = 'A' := by
  have hlen : b64chars.length = 64 := by decide
  unfold b64alpha
  apply List.getD_eq_default
  omega

theorem decodeChar_b64alpha : ∀ v < 64, decodeChar (b64alpha v) = some v := by
  decide

theorem b64alpha_ne_pad (v : Nat) : b64alpha v ≠ '=' := by
  by_cases h : v < 64
  · exact (by decide : ∀ v < 64, b64alpha v ≠ '=') v h
  · rw [b64alpha_default v h]; decide

theorem utf8Len_b64alpha (v : Nat) : utf8Len (b64alpha v) = 1 := by
  by_cases h : v < 64
  · exact (by decide : ∀ v < 64, utf8Len (b64alpha v) = 1) v h
  · rw [b64alpha_default v h]; decide

/-- Single steps of the `a2b` machine on alphabet characters. -/
theorem a2b_step0 (c : Char) (t : List Char) (lc pads v : Nat)
    (hv : decodeChar c = some v) (hne : c ≠ '=') :
    a2b (c :: t) 0 lc pads = a2b t 1 v 0 := by
  simp [a2b, hne, hv]

theorem a2b_step1 (c : Char) (t : List Char) (lc pads v : Nat)
    (hv : decodeChar c = some v) (hne : c ≠ '=') :
    a2b (c :: t) 1 lc pads = (a2b t 2 (v % 16) 0).map (fun bs => (lc * 4 + v / 16) :: bs) := by
  simp [a2b, hne, hv]

theorem a2b_step2 (c : Char) (t : List Char) (lc pads v : Nat)
    (hv : decodeChar c = some v) (hne : c ≠ '=') :
    a2b (c :: t) 2 lc pads = (a2b t 3 (v % 4) 0).map (fun bs => (lc * 16 + v / 4) :: bs) := by
  simp [a2b, hne, hv]

theorem a2b_step3 (c : Char) (t : List Char) (lc pads v : Nat)
    (hv : decodeChar c = some v) (hne : c ≠ '=') :
    a2b (c :: t) 3 lc pads = (a2b t 0 0 0).map (fun bs => (lc * 64 + v) :: bs) := by
  simp [a2b, hne, hv]

theorem a2b_pad2_first (t : List Char) (lc : Nat) :
    a2b ('=' :: t) 2 lc 0 = a2b t 2 lc 1 := by
  simp [a2b]

theorem a2b_pad2_done (t : List Char) (lc : Nat) :
    a2b ('=' :: t) 2 lc 1 = some [] := by
  simp [a2b]

theorem a2b_pad3_done (t : List Char) (lc : Nat) :
    a2b ('=' :: t) 3 lc 0 = some [] := by
  simp [a2b]

theorem b64alpha_mem (v : Nat) : b64chars.contains (b64alpha v) = true := by
  by_cases h : v < 64
  · exact (by decide : ∀ v < 64, b64chars.contains (b64alpha v) = true) v h
  · rw [b64alpha_default v h]; decide

/-- Decoding one full quad of alphabet characters emits three bytes and
returns the machine to its initial state. -/
theorem a2b_chunk (a b c : Nat) (T : List Char)
    (ha : a < 256) (hb : b < 256) (hc : c < 256) :
    a2b (encode3 a b c ++ T) 0 0 0 =
      (a2b T 0 0 0).map (fun bs => a :: b :: c :: bs) := by
  have h1 : a / 4 < 64 := by omega
  have h2 : a % 4 * 16 + b / 16 < 64 := by omega
  have h3 : b % 16 * 4 + c / 64 < 64 := by omega
  have h4 : c % 64 < 64 := by omega
  simp only [encode3, List.cons_append, List.nil_append]
  rw [a2b_step0 _ _ _ _ _ (decodeChar_b64alpha _ h1) (b64alpha_ne_pad _)]
  rw [a2b_step1 _ _ _ _ _ (decodeChar_b64alpha _ h2) (b64alpha_ne_pad _)]
  rw [a2b_step2 _ _ _ _ _ (decodeChar_b64alpha _ h3) (b64alpha_ne_pad _)]
  rw [a2b_step3 _ _ _ _ _ (decodeChar_b64alpha _ h4) (b64alpha_ne_pad _)]
  cases hT : a2b T 0 0 0 with
  | none => simp
  | some bs =>
    simp only [Option.map_some', Option.some.injEq, List.cons.injEq, and_true]
    omega

theorem encS_utf8sum (b : List Nat) :
    ((b64urlEncodeStripped b).map utf8Len).sum = (b64urlEncodeStripped b).length := by
  induction b using b64urlEncodeStripped.induct with
  | case1 => simp [b64urlEncodeStripped]
  | case2 a => simp [b64urlEncodeStripped, utf8Len_b64alpha]
  | case3 a b => simp [b64urlEncodeStripped, utf8Len_b64alpha]
  | case4 a b c rest ih =>
    simp [b64urlEncodeStripped, encode3, utf8Len_b64alpha, ih]
    omega

/-- Core roundtrip: the padded-out stripped encoding decodes to the
original bytes. -/
theorem a2b_encS (b : List Nat) (hb : ∀ x ∈ b, x < 256) :
    a2b (b64urlEncodeStripped b ++
      List.replicate ((4 - (b64urlEncodeStripped b).length % 4) % 4) '=') 0 0 0 = some b := by
  induction b using b64urlEncodeStripped.induct with
  | case1 => simp [b64urlEncodeStripped, a2b]
  | case2 a =>
    have ha : a < 256 := hb a (by simp)
    have h1 : a / 4 < 64 := by omega
    have h2 : a % 4 * 16 < 64 := by omega
    show a2b [b64alpha (a / 4), b64alpha (a % 4 * 16), '=', '='] 0 0 0 = some [a]
    rw [a2b_step0 _ _ _ _ _ (decodeChar_b64alpha _ h1) (b64alpha_ne_pad _)]
    rw [a2b_step1 _ _ _ _ _ (decodeChar_b64alpha _ h2) (b64alpha_ne_pad _)]
    rw [a2b_pad2_first, a2b_pad2_done]
    simp only [Option.map_some', Option.some.injEq, List.cons.injEq, and_true]
    omega
  | case3 a b =>
    have ha : a < 256 := hb a (by simp)
    have hbb : b < 256 := hb b (by simp)
    have h1 : a / 4 < 64 := by omega
    have h2 : a % 4 * 16 + b / 16 < 64 := by omega
    have h3 : b % 16 * 4 < 64 := by omega
    show a2b [b64alpha (a / 4), b64alpha (a % 4 * 16 + b / 16),
      b64alpha (b % 16 * 4), '='] 0 0 0 = some [a, b]
    rw [a2b_step0 _ _ _ _ _ (decodeChar_b64alpha _ h1) (b64alpha_ne_pad _)]
    rw [a2b_step1 _ _ _ _ _ (decodeChar_b64alpha _ h2) (b64alpha_ne_pad _)]
    rw [a2b_step2 _ _ _ _ _ (decodeChar_b64alpha _ h3) (b64alpha_ne_pad _)]
    rw [a2b_pad3_done]
    simp only [Option.map_some', Option.some.injEq, List.cons.injEq, and_true]
    omega
  | case4 a b c rest ih =>
    have ha : a < 256 := hb a (by simp)
    have hbb : b < 256 := hb b (by simp)
    have hc : c < 256 := hb c (by simp)
    have hrest : ∀ x ∈ rest, x < 256 := fun x hx => hb x (by simp [hx])
    have hpad : (4 - (4 + (b64urlEncodeStripped rest).length) % 4) % 4 =
        (4 - (b64urlEncodeStripped rest).length % 4) % 4 := by omega
    rw [show b64urlEncodeStripped (a :: b :: c :: rest) =
        encode3 a b c ++ b64urlEncodeStripped rest from rfl]
    rw [List.length_append, show (encode3 a b c).length = 4 from rfl]
    rw [hpad, List.append_assoc]
    rw [a2b_chunk a b c _ ha hbb hc]
    rw [ih hrest]
    rfl

theorem encS_ne_nil (b : List Nat) (h : b ≠ []) : b64urlEncodeStripped b ≠ [] := by
  match b with
  | [a] => simp [b64urlEncodeStripped]
  | [a, b] => simp [b64urlEncodeStripped]
  | a :: b :: c :: rest => simp [b64urlEncodeStripped, encode3]

/-- Roundtrip through `b64url_decode`. -/
theorem b64url_decode_encode (b : List Nat) (hb : ∀ x ∈ b, x < 256) :
    b64url_decode (b64urlEncodeStripped b) = b := by
  by_cases hnil : b = []
  · subst hnil; rfl
  · have hne := encS_ne_nil b hnil
    unfold b64url_decode
    rw [if_neg (by simpa using hne)]
    simp only [encS_utf8sum, a2b_encS b hb]

/-- The machine ignores every input consisting only of non-alphabet
characters (`=` included) while in its initial quad position. -/
theorem a2b_skip_all (l : List Char) :
    ∀ lc pads, (∀ c ∈ l, decodeChar c = none) → a2b l 0 lc pads = some [] := by
  induction l with
  | nil => intro lc pads _; rfl
  | cons c rest ih =>
    intro lc pads h
    by_cases hc : c = '='
    · subst hc
      have hstep : a2b ('=' :: rest) 0 lc pads = a2b rest 0 lc pads := by
        simp [a2b]
      rw [hstep]
      exact ih lc pads (fun x hx => h x (by simp [hx]))
    · have hd : decodeChar c = none := h c (by simp)
      have hstep : a2b (c :: rest) 0 lc pads = a2b rest 0 lc pads := by
        simp [a2b, hc, hd]
      rw [hstep]
      exact ih lc pads (fun x hx => h x (by simp [hx]))

/-- Inputs with no URL-safe base64 alphabet characters decode to empty. -/
theorem b64url_decode_no_alpha (s : List Char)
    (h : ∀ c ∈ s, decodeChar c = none) : b64url_decode s = [] := by
  by_cases hnil : s = []
  · subst hnil; rfl
  · unfold b64url_decode
    rw [if_neg (by simpa using hnil)]
    have hall : ∀ c ∈ s ++ List.replicate ((4 - (s.map utf8Len).sum % 4) % 4) '=',
        decodeChar c = none := by
      intro c hc
      rcases List.mem_append.mp hc with hc | hc
      · exact h c hc
      · rw [List.eq_of_mem_replicate hc]; rfl
    simp only [a2b_skip_all _ 0 0 hall]

/-- Every stripped encoding passes the validity decider (so any string the
decider rejects is not the stripped URL-safe base64 encoding of any byte
sequence). -/
theorem encS_isValidStripped (b : List Nat) :
    isValidStripped (b64urlEncodeStripped b) = true := by
  induction b using b64urlEncodeStripped.induct with
  | case1 => rfl
  | case2 a =>
    have h2 : a % 4 * 16 < 64 := by omega
    show (b64chars.contains (b64alpha (a / 4)) && b64chars.contains (b64alpha (a % 4 * 16)) &&
      ((decodeChar (b64alpha (a % 4 * 16))).getD 0 % 16 == 0)) = true
    rw [decodeChar_b64alpha _ h2, b64alpha_mem, b64alpha_mem]
    simp only [Bool.true_and, Option.getD_some, beq_iff_eq]
    omega
  | case3 a b =>
    have h3 : b % 16 * 4 < 64 := by omega
    show (b64chars.contains (b64alpha (a / 4)) &&
      b64chars.contains (b64alpha (a % 4 * 16 + b / 16)) &&
      b64chars.contains (b64alpha (b % 16 * 4)) &&
      ((decodeChar (b64alpha (b % 16 * 4))).getD 0 % 4 == 0)) = true
    rw [decodeChar_b64alpha _ h3, b64alpha_mem, b64alpha_mem, b64alpha_mem]
    simp only [Bool.true_and, Option.getD_some, beq_iff_eq]
    omega
  | case4 a b c rest ih =>
    show (b64chars.contains (b64alpha (a / 4)) &&
      b64chars.contains (b64alpha (a % 4 * 16 + b / 16)) &&
      b64chars.contains (b64alpha (b % 16 * 4 + c / 64)) &&
      b64chars.contains (b64alpha (c % 64)) &&
      isValidStripped (b64urlEncodeStripped rest)) = true
    rw [b64alpha_mem, b64alpha_mem, b64alpha_mem, b64alpha_mem, ih]
    rfl
/-! ## Walker-loop accumulation lemmas -/

theorem foldl_stepClass (cs : List PartClass) :
    ∀ ts hs as_, cs.foldl stepClass (ts, hs, as_) =
      (ts ++ cs.filterMap textOf, hs ++ cs.filterMap htmlOf, as_ ++ cs.filterMap attOf) := by
  induction cs with
  | nil => simp
  | cons c rest ih =>
    intro ts hs as_
    cases c <;>
      simp [stepClass, textOf, htmlOf, attOf, List.foldl_cons, ih, List.append_assoc]

theorem collectParts_eq (cs : List PartClass) :
    collectParts cs = (cs.filterMap textOf, cs.filterMap htmlOf, cs.filterMap attOf) := by
  simpa using foldl_stepClass cs [] [] []

theorem attOf_classifyFull (E : PyEnv) (p : GmailPart) (a : Attachment)
    (h : attOf (classifyFull E p) = some a) :
    isAttFull p = true ∧ a = mkAttFull E p := by
  unfold classifyFull at h
  by_cases h1 : isAttFull p
  · simp [h1, attOf] at h
    exact ⟨h1, h.symm⟩
  · exfalso
    simp [h1] at h
    split_ifs at h <;> simp [attOf] at h

theorem attOf_classifyRaw (E : PyEnv) (p : RawPart) (a : Attachment)
    (h : attOf (classifyRaw E p) = some a) :
    p.is_multipart = false ∧ isAttRaw p = true ∧ a = mkAttRaw E p := by
  unfold classifyRaw at h
  by_cases hm : p.is_multipart
  · simp [hm, attOf] at h
  · by_cases h1 : isAttRaw p
    · simp [hm, h1, attOf] at h
      exact ⟨by simpa using hm, h1, h.symm⟩
    · exfalso
      simp [hm, h1] at h
      split_ifs at h <;> simp [attOf] at h

/-! ## Elimination of the `do`-pipelines -/

theorem parse_full_some (E : PyEnv) (msg : GmailMsg) (pe : ParsedEmail)
    (h : _parse_full E msg = some pe) :
    ∃ a b c, pe = fullResult E msg a b c := by
  unfold _parse_full at h
  simp only [bind, Option.bind_eq_some, pure, Option.some.injEq] at h
  obtain ⟨a, _, b, _, c, _, hpe⟩ := h
  exact ⟨a, b, c, hpe.symm⟩

theorem parse_raw_some (E : PyEnv) (msg : GmailMsg) (pe : ParsedEmail)
    (h : _parse_raw E msg = some pe) :
    ∃ a b c, pe = rawResult E msg a b c := by
  unfold _parse_raw at h
  simp only [bind, Option.bind_eq_some, pure, Option.some.injEq] at h
  obtain ⟨a, _, b, _, c, _, hpe⟩ := h
  exact ⟨a, b, c, hpe.symm⟩

/-! ## `max(items, key=len)` selects the first longest element -/

theorem maxByLen_spec (xs : List String) : ∀ x : String,
    ∃ l₁ l₂, x :: xs = l₁ ++ (maxByLen x xs) :: l₂ ∧
      (∀ y ∈ l₁, y.length < (maxByLen x xs).length) ∧
      (∀ y ∈ x :: xs, y.length ≤ (maxByLen x xs).length) := by
  induction xs with
  | nil =>
    intro x
    exact ⟨[], [], rfl, by simp, by simp [maxByLen]⟩
  | cons y ys ih =>
    intro x
    by_cases hxy : x.length < y.length
    · obtain ⟨l₁, l₂, he, hlt, hle⟩ := ih y
      have hr : maxByLen x (y :: ys) = maxByLen y ys := by
        simp [maxByLen, hxy]
      rw [hr]
      have hyr : y.length ≤ (maxByLen y ys).length := hle y (by simp)
      refine ⟨x :: l₁, l₂, ?_, ?_, ?_⟩
      · simpa using congrArg (fun l => x :: l) he
      · intro z hz
        rcases List.mem_cons.mp hz with hz | hz
        · subst hz; omega
        · exact hlt z hz
      · intro z hz
        rcases List.mem_cons.mp hz with hz | hz
        · subst hz; omega
        · exact hle z hz
    · obtain ⟨l₁, l₂, he, hlt, hle⟩ := ih x
      have hr : maxByLen x (y :: ys) = maxByLen x ys := by
        simp [maxByLen, hxy]
      rw [hr]
      have hyx : y.length ≤ x.length := by omega
      have hxr : x.length ≤ (maxByLen x ys).length := hle x (by simp)
      cases l₁ with
      | nil =>
        simp only [List.nil_append] at he
        have hx : x = maxByLen x ys := (List.cons.injEq _ _ _ _).mp he |>.1
        have hys : ys = l₂ := (List.cons.injEq _ _ _ _).mp he |>.2
        refine ⟨[], y :: ys, ?_, by simp, ?_⟩
        · rw [List.nil_append, ← hx]
        · intro z hz
          rcases List.mem_cons.mp hz with hz | hz
          · subst hz; exact hxr
          · rcases List.mem_cons.mp hz with hz | hz
            · subst hz; omega
            · exact hle z (List.mem_cons_of_mem x hz)
      | cons w t =>
        simp only [List.cons_append] at he
        have hw : x = w := (List.cons.injEq _ _ _ _).mp he |>.1
        have hys : ys = t ++ maxByLen x ys :: l₂ := (List.cons.injEq _ _ _ _).mp he |>.2
        have hxw : x.length = w.length := by rw [hw]
        have hxlt : x.length < (maxByLen x ys).length := by
          have h1 := hlt w (by simp)
          omega
        refine ⟨x :: y :: t, l₂, ?_, ?_, ?_⟩
        · rw [show (x :: y :: t) ++ maxByLen x ys :: l₂ =
              x :: y :: (t ++ maxByLen x ys :: l₂) from rfl, ← hys]
        · intro z hz
          rcases List.mem_cons.mp hz with hz | hz
          · subst hz; exact hxlt
          · rcases List.mem_cons.mp hz with hz | hz
            · subst hz; omega
            · have := hlt z (by simp [hz])
              omega
        · intro z hz
          rcases List.mem_cons.mp hz with hz | hz
          · subst hz; omega
          · rcases List.mem_cons.mp hz with hz | hz
            · subst hz; omega
            · exact hle z (List.mem_cons_of_mem x hz)

/-! ## Projections of the assembled records -/

theorem fullResult_attachments (E : PyEnv) (msg : GmailMsg) (a b c : List String) :
    (fullResult E msg a b c).attachments = (fullClasses E msg).filterMap attOf := by
  simp [fullResult, collectParts_eq]

theorem fullResult_text (E : PyEnv) (msg : GmailMsg) (a b c : List String) :
    (fullResult E msg a b c).text = _best ((fullClasses E msg).filterMap textOf) := by
  simp [fullResult, collectParts_eq]

theorem fullResult_html (E : PyEnv) (msg : GmailMsg) (a b c : List String) :
    (fullResult E msg a b c).html = _best ((fullClasses E msg).filterMap htmlOf) := by
  simp [fullResult, collectParts_eq]

theorem fullResult_date (E : PyEnv) (msg : GmailMsg) (a b c : List String) :
    (fullResult E msg a b c).date = fullDate E msg := rfl

theorem rawResult_attachments (E : PyEnv) (msg : GmailMsg) (a b c : List String) :
    (rawResult E msg a b c).attachments = (rawClasses E (rawEmOf E msg)).filterMap attOf := by
  simp [rawResult, collectParts_eq]

theorem rawResult_text (E : PyEnv) (msg : GmailMsg) (a b c : List String) :
    (rawResult E msg a b c).text = _best ((rawClasses E (rawEmOf E msg)).filterMap textOf) := by
  simp [rawResult, collectParts_eq]

theorem rawResult_html (E : PyEnv) (msg : GmailMsg) (a b c : List String) :
    (rawResult E msg a b c).html = _best ((rawClasses E (rawEmOf E msg)).filterMap htmlOf) := by
  simp [rawResult, collectParts_eq]

theorem rawResult_date (E : PyEnv) (msg : GmailMsg) (a b c : List String) :
    (rawResult E msg a b c).date = rawDate E (rawEmOf E msg) := rfl

/-! ## Text-decode fallback chain lemmas -/

theorem decodeToTextOpt_none (E : PyEnv) (b : List Nat) :
    decodeToTextOpt E b none =
      (E.decodeReplace "utf-8" b).orElse (fun _ =>
        (E.decodeReplace "latin-1" b).orElse (fun _ => E.decodeReplace "utf-8" b)) := by
  unfold decodeToTextOpt
  cases h8 : E.decodeReplace "utf-8" b with
  | some s => simp [firstSome, h8]
  | none =>
    cases h1 : E.decodeReplace "latin-1" b with
    | some s => simp [firstSome, h8, h1]
    | none => simp [firstSome, h8, h1]

theorem decodeToTextOpt_declared_ok (E : PyEnv) (b : List Nat) (name : String)
    (h : (E.decodeReplace name b).isSome) :
    decodeToTextOpt E b (some name) = E.decodeReplace name b := by
  unfold decodeToTextOpt
  obtain ⟨s, hs⟩ := Option.isSome_iff_exists.mp h
  simp [firstSome, hs]

theorem decodeToTextOpt_declared_bad (E : PyEnv) (b : List Nat) (name : String)
    (h : E.decodeReplace name b = none) :
    decodeToTextOpt E b (some name) = decodeToTextOpt E b none := by
  unfold decodeToTextOpt
  simp [firstSome, h]

/-! ## Address formatting lemmas -/

theorem formataddr_isSome (E : PyEnv) (name addr : String)
    (haddr : allAscii addr = true) :
    ∃ f, formataddr E name addr = some f := by
  unfold formataddr
  rw [if_neg (by simp [haddr])]
  split_ifs <;> exact ⟨_, rfl⟩

theorem formataddr_empty_name (E : PyEnv) (addr : String)
    (haddr : allAscii addr = true) :
    formataddr E "" addr = some addr := by
  simp [formataddr, haddr]

theorem formataddr_named (E : PyEnv) (name addr : String)
    (haddr : allAscii addr = true) (hn : name ≠ "") :
    ∃ r, formataddr E name addr = some (r ++ " <" ++ addr ++ ">") := by
  unfold formataddr
  rw [if_neg (by simp [haddr]), if_pos hn]
  split_ifs <;> exact ⟨_, rfl⟩

theorem formataddr_nonascii_addr (E : PyEnv) (name addr : String)
    (haddr : ¬ allAscii addr = true) :
    formataddr E name addr = none := by
  simp [formataddr, haddr]

/-- The `getaddresses` loop returns exactly the filtered, decoded,
reformatted entries whenever every surviving address is ASCII. -/
theorem addrLoop_eq (E : PyEnv) (pairs : List (String × String))
    (h : ∀ p ∈ pairs, pyStripStr p.2 ≠ "" → allAscii (pyStripStr p.2) = true) :
    addrLoop E pairs = some (pairs.filterMap (fun p =>
      if pyStripStr p.2 = "" then none
      else (formataddr E (pyStripStr (decode_header_str E (some p.1)))
        (pyStripStr p.2)).map pyStripStr)) := by
  induction pairs with
  | nil => rfl
  | cons p rest ih =>
    obtain ⟨name, addr⟩ := p
    have hrest := ih (fun q hq hne => h q (by simp [hq]) hne)
    by_cases ha : pyStripStr addr = ""
    · simp only [addrLoop, ha, if_pos rfl, List.filterMap_cons, if_true]
      simpa [ha] using hrest
    · have hascii := h (name, addr) (by simp) ha
      obtain ⟨f, hf⟩ :=
        formataddr_isSome E (pyStripStr (decode_header_str E (some name)))
          (pyStripStr addr) hascii
      simp only [addrLoop, List.filterMap_cons]
      rw [if_neg ha, hf, hrest]
      simp [ha, hf]

/-! ## Claim C3 -/

/-- No byte sequence has `"ab==!"` as its stripped URL-safe base64
encoding: every genuine encoding passes the validity decider. -/
theorem encS_never_ab_pad_bang :
    ∀ b : List Nat, b64urlEncodeStripped b ≠ ("ab==!".toList) := by
  intro b h
  have hv := encS_isValidStripped b
  rw [h] at hv
  exact absurd hv (by decide)

/-- Claim C3 (amended): decoding the padding-stripped URL-safe base64
encoding of any byte sequence recovers exactly those bytes (the function
appends the padding deficit modulo 4 before decoding); `b64url_decode`
never raises, and on an input with no URL-safe alphabet characters it
returns the empty byte sequence.  (As frozen, the claim also asserted
empty output for *every* invalid input; `counterexample_C3` refutes that:
non-alphabet characters are discarded, not rejected.) -/
theorem claim_C3_b64url_roundtrip :
    (∀ b : List Nat, (∀ x ∈ b, x < 256) →
      b64url_decode (b64urlEncodeStripped b) = b) ∧
    (∀ s : List Char, (∀ c ∈ s, decodeChar c = none) → b64url_decode s = []) :=
  ⟨b64url_decode_encode, b64url_decode_no_alpha⟩

/-- Claim C3 counterexample: `"ab==!"` is not valid URL-safe base64 (the
validity decider rejects it, and `encS_never_ab_pad_bang` shows nothing
encodes to it), yet `b64url_decode` returns the non-empty byte string
`[105]` rather than the empty one the claim demands. -/
theorem counterexample_C3 :
    isValidStripped ("ab==!".toList) = false ∧
    b64url_decode ("ab==!".toList) = [105] ∧
    ([105] : List Nat) ≠ [] := by
  refine ⟨by decide, by decide, by decide⟩

theorem claim_C3_witness :
    b64url_decode (b64urlEncodeStripped [72, 105, 33]) = [72, 105, 33] ∧
    b64url_decode ("?!".toList) = [] :=
  ⟨claim_C3_b64url_roundtrip.1 [72, 105, 33] (by decide),
   claim_C3_b64url_roundtrip.2 ("?!".toList) (by decide)⟩

/-! ## Claim C7 -/

/-- Claim C7: `decode_header_str` is the identity on every plain ASCII
string containing no RFC 2047 encoded words (no match of the stdlib
encoded-word pattern), and hence idempotent on such strings. -/
theorem claim_C7_header_identity :
    ∀ (E : PyEnv) (s : String), (∀ c ∈ s.toList, c.toNat < 128) →
      containsEcre s.toList = false →
      decode_header_str E (some s) = s ∧
      decode_header_str E (some (decode_header_str E (some s))) = s := by
  intro E s _ h
  have hd : containsEcre s.data = false := h
  have h1 : decode_header_str E (some s) = s := by
    simp [decode_header_str, hd]
  exact ⟨h1, by rw [h1, h1]⟩

theorem claim_C7_witness :
    decode_header_str pyEnv0 (some "Hello World") = "Hello World" ∧
    decode_header_str pyEnv0
      (some (decode_header_str pyEnv0 (some "Hello World"))) = "Hello World" :=
  claim_C7_header_identity pyEnv0 "Hello World" (by decide) (by decide)

/-! ## Claim C9 -/

/-- Claim C9 (amended): `parse_message` takes the raw path exactly when
`prefer_raw` is set and the dict has a `"raw"` key; in every other case it
runs the structured path.  The dispatch itself introduces no failure — in
particular `prefer_raw=True` without a `"raw"` key simply falls through to
the full path — but the chosen path can still fail on a non-ASCII address
(`counterexample_C9`), so "does not fail" does not hold unconditionally. -/
theorem claim_C9_dispatch :
    ∀ (E : PyEnv) (msg : GmailMsg) (prefer_raw : Bool),
      (prefer_raw = true ∧ msg.raw.isSome = true →
        parse_message E msg prefer_raw = _parse_raw E msg) ∧
      (¬(prefer_raw = true ∧ msg.raw.isSome = true) →
        parse_message E msg prefer_raw = _parse_full E msg) := by
  intro E msg pr
  constructor
  · rintro ⟨h1, h2⟩
    simp [parse_message, h1, h2]
  · intro h
    rw [parse_message, if_neg]
    simpa using h

/-- Claim C9 counterexample: a structured-path case in which
`parse_message` fails — the To header is a bare non-ASCII address, so
`formataddr` raises `UnicodeEncodeError` inside `parse_addr_list`. -/
theorem counterexample_C9 :
    parse_message pyEnv0 msgAddr false = none ∧
    msgAddr.raw = none := ⟨rfl, rfl⟩

theorem claim_C9_witness :
    parse_message pyEnv0 msgRawWit true = _parse_raw pyEnv0 msgRawWit ∧
    parse_message pyEnv0 msgWit true = _parse_full pyEnv0 msgWit :=
  ⟨(claim_C9_dispatch pyEnv0 msgRawWit true).1 ⟨rfl, rfl⟩,
   (claim_C9_dispatch pyEnv0 msgWit true).2 (by decide)⟩

/-! ## Claim C4 -/

/-- Claim C4: for every byte sequence and optional declared charset,
`_decode_to_text` produces a string and never raises, provided (as in
CPython) utf-8-with-replacement decoding always succeeds.  The chain tries
the declared charset first, then utf-8, then latin-1; when the declared
charset is unknown (its decode attempt raises), the chain falls through
and terminates in the permissive utf-8 decode. -/
theorem claim_C4_decode_chain :
    ∀ (E : PyEnv), (∀ bs, (E.decodeReplace "utf-8" bs).isSome) →
      ∀ (b : List Nat) (charset : Option String),
        (∃ s, decodeToTextOpt E b charset = some s) ∧
        (_decode_to_text E b charset = (decodeToTextOpt E b charset).getD "") ∧
        (decodeToTextOpt E b none = E.decodeReplace "utf-8" b) ∧
        (∀ name, charset = some name → (E.decodeReplace name b).isSome →
          decodeToTextOpt E b charset = E.decodeReplace name b) ∧
        (∀ name, charset = some name → E.decodeReplace name b = none →
          decodeToTextOpt E b charset = E.decodeReplace "utf-8" b) := by
  intro E hU b charset
  obtain ⟨s8, hs8⟩ := Option.isSome_iff_exists.mp (hU b)
  have hnone : decodeToTextOpt E b none = E.decodeReplace "utf-8" b := by
    unfold decodeToTextOpt
    simp [firstSome, hs8]
  refine ⟨?_, rfl, hnone, ?_, ?_⟩
  · cases charset with
    | none => exact ⟨s8, hnone.trans hs8⟩
    | some name =>
      cases hn : E.decodeReplace name b with
      | some s => exact ⟨s, (decodeToTextOpt_declared_ok E b name (by simp [hn])).trans hn⟩
      | none =>
        refine ⟨s8, ?_⟩
        rw [decodeToTextOpt_declared_bad E b name hn, hnone, hs8]
  · intro name hc hok
    subst hc
    exact decodeToTextOpt_declared_ok E b name hok
  · intro name hc hbad
    subst hc
    rw [decodeToTextOpt_declared_bad E b name hbad, hnone]

theorem claim_C4_witness :
    (∃ s, decodeToTextOpt pyEnv0 [200] (some "x-bogus") = some s) ∧
    (_decode_to_text pyEnv0 [200] (some "x-bogus") =
      (decodeToTextOpt pyEnv0 [200] (some "x-bogus")).getD "") ∧
    (decodeToTextOpt pyEnv0 [200] none = pyEnv0.decodeReplace "utf-8" [200]) ∧
    (∀ name, (some "x-bogus" : Option String) = some name →
      (pyEnv0.decodeReplace name [200]).isSome →
      decodeToTextOpt pyEnv0 [200] (some "x-bogus") = pyEnv0.decodeReplace name [200]) ∧
    (∀ name, (some "x-bogus" : Option String) = some name →
      pyEnv0.decodeReplace name [200] = none →
      decodeToTextOpt pyEnv0 [200] (some "x-bogus") = pyEnv0.decodeReplace "utf-8" [200]) :=
  claim_C4_decode_chain pyEnv0 (fun _ => rfl) [200] (some "x-bogus")

/-! ## Claims C1, C2: attachment classification -/

/-- The code's attachment test is the claim's disjunction (non-empty
filename, disposition containing "attachment", or a non-empty
attachmentId). -/
theorem isAttFull_iff (p : GmailPart) :
    isAttFull p = true ↔
      (partFilename p ≠ "" ∨ strContainsSub "attachment" (partDisp p) = true ∨
        (∃ s, p.body.attachmentId = some s ∧ s ≠ "")) := by
  unfold isAttFull
  cases hid : p.body.attachmentId with
  | none => simp [hid, bne_iff_ne]
  | some s =>
    simp [hid, bne_iff_ne]
    tauto

theorem isAttRaw_iff (p : RawPart) :
    isAttRaw p = true ↔
      (rawFilename p ≠ "" ∨ strContainsSub "attachment" (rawDisp p) = true) := by
  unfold isAttRaw
  simp [bne_iff_ne]

/-- Claim C1 (amended): every attachment record of the structured path
comes from a classified part with `attachment_id` equal verbatim to the
part's `attachmentId` (absent when the part carried none) and `data`
populated exactly when the inline body data decoded to non-empty bytes —
so both fields are `None` together when a filename/disposition-classified
part carries neither (see `counterexample_C1`); every attachment of the
raw-stream path has `attachment_id = None`. -/
theorem claim_C1_attachment_fields :
    (∀ (E : PyEnv) (msg : GmailMsg) (pe : ParsedEmail), _parse_full E msg = some pe →
      ∀ a ∈ pe.attachments,
        ∃ p ∈ _walk_parts (msg.payload.getD GmailPart.empty),
          isAttFull p = true ∧
          a.attachment_id = p.body.attachmentId ∧
          a.data = (if partData p = [] then none else some (partData p))) ∧
    (∀ (E : PyEnv) (msg : GmailMsg) (pe : ParsedEmail), _parse_raw E msg = some pe →
      ∀ a ∈ pe.attachments, a.attachment_id = none) := by
  constructor
  · intro E msg pe h a ha
    obtain ⟨t, c, bc, rfl⟩ := parse_full_some E msg pe h
    rw [fullResult_attachments] at ha
    obtain ⟨cls, hcls, hattof⟩ := List.mem_filterMap.mp ha
    obtain ⟨p, hp, rfl⟩ := List.mem_map.mp hcls
    obtain ⟨hcond, rfl⟩ := attOf_classifyFull E p a hattof
    exact ⟨p, hp, hcond, rfl, rfl⟩
  · intro E msg pe h a ha
    obtain ⟨t, c, bc, rfl⟩ := parse_raw_some E msg pe h
    rw [rawResult_attachments] at ha
    obtain ⟨cls, hcls, hattof⟩ := List.mem_filterMap.mp ha
    obtain ⟨p, hp, rfl⟩ := List.mem_map.mp hcls
    obtain ⟨_, _, rfl⟩ := attOf_classifyRaw E p a hattof
    rfl

/-- Claim C1 counterexample: a part with a filename but neither inline
data nor an attachmentId yields an attachment whose `data` and
`attachment_id` are both `None`, contradicting "exactly one populated,
never both None". -/
theorem counterexample_C1 :
    ((_parse_full pyEnv0 msgFileOnly).map
      (fun pe => pe.attachments.map (fun a => (a.data, a.attachment_id)))) =
        some [(none, none)] := by
  decide

theorem claim_C1_witness :
    ∃ p ∈ _walk_parts (msgFileOnly.payload.getD GmailPart.empty),
      isAttFull p = true ∧
      (mkAttFull pyEnv0 attPartNoBody).attachment_id = p.body.attachmentId ∧
      (mkAttFull pyEnv0 attPartNoBody).data =
        (if partData p = [] then none else some (partData p)) :=
  claim_C1_attachment_fields.1 pyEnv0 msgFileOnly
    (fullResult pyEnv0 msgFileOnly [] [] []) rfl
    (mkAttFull pyEnv0 attPartNoBody)
    (by rw [fullResult_attachments]
        rw [show (fullClasses pyEnv0 msgFileOnly).filterMap attOf =
          [mkAttFull pyEnv0 attPartNoBody] from rfl]
        exact List.Mem.head _)

/-- Claim C2 (amended): a part with a non-empty filename, an "attachment"
disposition, or (structured path) a non-empty attachmentId is recorded as
an attachment and contributes nothing to the text/html candidate lists —
in the structured path for every walked node, in the raw path for every
non-multipart node (multipart containers are skipped before
classification, see `counterexample_C2`). -/
theorem claim_C2_attachment_priority :
    (∀ (E : PyEnv) (msg : GmailMsg) (pe : ParsedEmail), _parse_full E msg = some pe →
      ∀ p ∈ _walk_parts (msg.payload.getD GmailPart.empty),
        (partFilename p ≠ "" ∨ strContainsSub "attachment" (partDisp p) = true ∨
          (∃ s, p.body.attachmentId = some s ∧ s ≠ "")) →
        mkAttFull E p ∈ pe.attachments ∧
        textOf (classifyFull E p) = none ∧ htmlOf (classifyFull E p) = none) ∧
    (∀ (E : PyEnv) (msg : GmailMsg) (pe : ParsedEmail), _parse_raw E msg = some pe →
      ∀ p ∈ (rawEmOf E msg).parts, p.is_multipart = false →
        (rawFilename p ≠ "" ∨ strContainsSub "attachment" (rawDisp p) = true) →
        mkAttRaw E p ∈ pe.attachments ∧
        textOf (classifyRaw E p) = none ∧ htmlOf (classifyRaw E p) = none) := by
  constructor
  · intro E msg pe h p hp hcond
    obtain ⟨t, c, bc, rfl⟩ := parse_full_some E msg pe h
    have hatt : isAttFull p = true := (isAttFull_iff p).mpr hcond
    have hcls : classifyFull E p = .att (mkAttFull E p) := by
      simp [classifyFull, hatt]
    refine ⟨?_, by simp [hcls, textOf], by simp [hcls, htmlOf]⟩
    rw [fullResult_attachments]
    exact List.mem_filterMap.mpr
      ⟨classifyFull E p, List.mem_map_of_mem _ hp, by simp [hcls, attOf]⟩
  · intro E msg pe h p hp hm hcond
    obtain ⟨t, c, bc, rfl⟩ := parse_raw_some E msg pe h
    have hatt : isAttRaw p = true := (isAttRaw_iff p).mpr hcond
    have hcls : classifyRaw E p = .att (mkAttRaw E p) := by
      simp [classifyRaw, hm, hatt]
    refine ⟨?_, by simp [hcls, textOf], by simp [hcls, htmlOf]⟩
    rw [rawResult_attachments]
    exact List.mem_filterMap.mpr
      ⟨classifyRaw E p, List.mem_map_of_mem _ hp, by simp [hcls, attOf]⟩

/-- Claim C2 counterexample: in the raw-stream path a *multipart* part
with a filename and an "attachment" disposition is skipped before the
attachment check and is not recorded. -/
theorem counterexample_C2 :
    rawFilename multiPart0 = "evil.bin" ∧
    strContainsSub "attachment" (rawDisp multiPart0) = true ∧
    multiPart0 ∈ (rawEmOf envMulti msgRawWit).parts ∧
    ((_parse_raw envMulti msgRawWit).map ParsedEmail.attachments) = some [] := by
  refine ⟨by decide, by decide, ?_, by decide⟩
  rw [show (rawEmOf envMulti msgRawWit).parts = [multiPart0] from rfl]
  exact List.Mem.head _

theorem claim_C2_witness :
    mkAttFull pyEnv0 witAttPart ∈
      (fullResult pyEnv0 msgWit ["Alice <alice@example.com>"] [] []).attachments ∧
    textOf (classifyFull pyEnv0 witAttPart) = none ∧
    htmlOf (classifyFull pyEnv0 witAttPart) = none :=
  claim_C2_attachment_priority.1 pyEnv0 msgWit
    (fullResult pyEnv0 msgWit ["Alice <alice@example.com>"] [] []) rfl
    witAttPart
    (by rw [show _walk_parts (msgWit.payload.getD GmailPart.empty) =
        (msgWit.payload.getD GmailPart.empty) :: [witAttPart, witTextPart] from rfl]
        exact List.Mem.tail _ (List.Mem.head _))
    (Or.inr (Or.inl (by decide)))

/-! ## Claim C10 -/

/-- Claim C10: every attachment produced by the raw-stream path has `data`
populated with the parser-decoded payload bytes (possibly empty, never
`None`), and `size` equal to the byte length of `data` when non-empty and
`None` when the payload is empty. -/
theorem claim_C10_raw_attachment_data :
    ∀ (E : PyEnv) (msg : GmailMsg) (pe : ParsedEmail), _parse_raw E msg = some pe →
      ∀ a ∈ pe.attachments, ∃ bs, a.data = some bs ∧
        a.size = (if bs = [] then none else some bs.length) := by
  intro E msg pe h a ha
  obtain ⟨t, c, bc, rfl⟩ := parse_raw_some E msg pe h
  rw [rawResult_attachments] at ha
  obtain ⟨cls, hcls, hattof⟩ := List.mem_filterMap.mp ha
  obtain ⟨p, hp, rfl⟩ := List.mem_map.mp hcls
  obtain ⟨_, _, rfl⟩ := attOf_classifyRaw E p a hattof
  exact ⟨rawPayload p, rfl, rfl⟩

theorem claim_C10_witness :
    ∃ bs, (mkAttRaw pyEnv0 rawAttPart0).data = some bs ∧
      (mkAttRaw pyEnv0 rawAttPart0).size = (if bs = [] then none else some bs.length) :=
  claim_C10_raw_attachment_data pyEnv0 msgRawWit
    (rawResult pyEnv0 msgRawWit [] [] []) rfl (mkAttRaw pyEnv0 rawAttPart0)
    (by rw [rawResult_attachments]
        rw [show (rawClasses pyEnv0 (rawEmOf pyEnv0 msgRawWit)).filterMap attOf =
          [mkAttRaw pyEnv0 rawAttPart0] from rfl]
        exact List.Mem.head _)

/-! ## Claim C5 -/

/-- Claim C5: `_best` drops empty/whitespace-only candidates and returns
the first-seen string of maximal length among the survivors (`""` when
none remain), and the `text`/`html` fields of the structured-path result
are `_best` of the candidate lists collected over the whole part tree. -/
theorem claim_C5_best_selection :
    (∀ items : List String,
      (items.filter bodyKeep = [] → _best items = "") ∧
      (∀ x xs, items.filter bodyKeep = x :: xs →
        ∃ l₁ l₂, x :: xs = l₁ ++ (_best items) :: l₂ ∧
          (∀ y ∈ l₁, y.length < (_best items).length) ∧
          (∀ y ∈ x :: xs, y.length ≤ (_best items).length))) ∧
    (∀ (E : PyEnv) (msg : GmailMsg) (pe : ParsedEmail), _parse_full E msg = some pe →
      pe.text = _best ((fullClasses E msg).filterMap textOf) ∧
      pe.html = _best ((fullClasses E msg).filterMap htmlOf)) := by
  constructor
  · intro items
    constructor
    · intro h
      unfold _best
      rw [h]
    · intro x xs h
      have hb : _best items = maxByLen x xs := by
        unfold _best
        rw [h]
      rw [hb]
      exact maxByLen_spec xs x
  · intro E msg pe h
    obtain ⟨a, b, c, rfl⟩ := parse_full_some E msg pe h
    exact ⟨fullResult_text E msg a b c, fullResult_html E msg a b c⟩

theorem claim_C5_witness :
    ∃ l₁ l₂, ("short" :: ["a longer one"]) =
        l₁ ++ (_best ["", "  ", "short", "a longer one"]) :: l₂ ∧
      (∀ y ∈ l₁, y.length < (_best ["", "  ", "short", "a longer one"]).length) ∧
      (∀ y ∈ "short" :: ["a longer one"],
        y.length ≤ (_best ["", "  ", "short", "a longer one"]).length) :=
  (claim_C5_best_selection.1 ["", "  ", "short", "a longer one"]).2
    "short" ["a longer one"] (by decide)

/-! ## Claim C6 -/

/-- Claim C6 (amended): on the structured path the `date` field is the ISO
rendering when the decoded Date header is non-empty and parses, the raw
decoded header string when it is non-empty and parsing raises, and `None`
when the decoded header is empty — which covers both a missing Date header
and one that decodes to the empty string (the case refuting the claim as
frozen, see `counterexample_C6`).  On the raw path the same holds with
"absent" meaning no `date` key in the header dict.  Date handling never
raises. -/
theorem claim_C6_date_rule :
    (∀ (E : PyEnv) (msg : GmailMsg) (pe : ParsedEmail), _parse_full E msg = some pe →
      (fullDateHdr E msg = "" → pe.date = none) ∧
      (∀ iso, fullDateHdr E msg ≠ "" → E.parseDateIso (fullDateHdr E msg) = some iso →
        pe.date = some iso) ∧
      (fullDateHdr E msg ≠ "" → E.parseDateIso (fullDateHdr E msg) = none →
        pe.date = some (fullDateHdr E msg))) ∧
    (∀ (E : PyEnv) (msg : GmailMsg) (pe : ParsedEmail), _parse_raw E msg = some pe →
      ((dictGet (rawHeaders E (rawEmOf E msg)) "date" = none ∨
        dictGet (rawHeaders E (rawEmOf E msg)) "date" = some "") → pe.date = none) ∧
      (∀ d iso, dictGet (rawHeaders E (rawEmOf E msg)) "date" = some d → d ≠ "" →
        E.parseDateIso d = some iso → pe.date = some iso) ∧
      (∀ d, dictGet (rawHeaders E (rawEmOf E msg)) "date" = some d → d ≠ "" →
        E.parseDateIso d = none → pe.date = some d)) := by
  constructor
  · intro E msg pe h
    obtain ⟨a, b, c, rfl⟩ := parse_full_some E msg pe h
    rw [fullResult_date]
    refine ⟨?_, ?_, ?_⟩
    · intro he
      simp [fullDate, he]
    · intro iso hne hp
      simp [fullDate, hne, hp]
    · intro hne hp
      simp [fullDate, hne, hp]
  · intro E msg pe h
    obtain ⟨a, b, c, rfl⟩ := parse_raw_some E msg pe h
    rw [rawResult_date]
    refine ⟨?_, ?_, ?_⟩
    · rintro (he | he) <;> simp [rawDate, he]
    · intro d iso hd hne hp
      simp [rawDate, hd, hne, hp]
    · intro d hd hne hp
      simp [rawDate, hd, hne, hp]

/-- Claim C6 counterexample: a present Date header whose value is the
empty string.  Parsing it would fail, so the claim as frozen demands the
raw decoded header string `""`; the code stores `None` instead (its guard
is on the truthiness of the decoded header, not its presence). -/
theorem counterexample_C6 :
    dictGet (fullHeaders msgDateEmpty) "date" = some "" ∧
    pyEnv0.parseDateIso "" = none ∧
    dateRuleClaim pyEnv0.parseDateIso (dictGet (fullHeaders msgDateEmpty) "date") =
      some "" ∧
    ((_parse_full pyEnv0 msgDateEmpty).map ParsedEmail.date) = some none := by
  refine ⟨by decide, rfl, by decide, by decide⟩

theorem claim_C6_witness :
    (fullResult pyEnv0 msgWit ["Alice <alice@example.com>"] [] []).date =
      some (fullDateHdr pyEnv0 msgWit) :=
  ((claim_C6_date_rule.1 pyEnv0 msgWit
    (fullResult pyEnv0 msgWit ["Alice <alice@example.com>"] [] []) rfl).2.2)
    (by decide) rfl

/-! ## Claim C8 -/

/-- Claim C8 (amended): provided every surviving address (non-empty after
trimming) is pure ASCII, `parse_addr_list` returns exactly the
`getaddresses` pairs with empty-address entries discarded, display names
decoded via `decode_header_str` and trimmed, and each entry reformatted by
`formataddr` and trimmed; `formataddr` yields the bare address for an
empty display name and a `"Name <addr>"`-shaped string otherwise.  Without
the ASCII proviso the call raises instead of returning
(`counterexample_C8`). -/
theorem claim_C8_addr_list :
    ∀ (E : PyEnv) (v : String),
      (∀ p ∈ E.getaddresses v, pyStripStr p.2 ≠ "" → allAscii (pyStripStr p.2) = true) →
      (parse_addr_list E (some v) = some (if v = "" then [] else
        (E.getaddresses v).filterMap (fun p =>
          if pyStripStr p.2 = "" then none
          else (formataddr E (pyStripStr (decode_header_str E (some p.1)))
            (pyStripStr p.2)).map pyStripStr))) ∧
      (∀ addr, allAscii addr = true → formataddr E "" addr = some addr) ∧
      (∀ name addr, allAscii addr = true → name ≠ "" →
        ∃ r, formataddr E name addr = some (r ++ " <" ++ addr ++ ">")) := by
  intro E v h
  refine ⟨?_, fun addr ha => formataddr_empty_name E addr ha,
    fun name addr ha hn => formataddr_named E name addr ha hn⟩
  by_cases hv : v = ""
  · simp [parse_addr_list, hv]
  · rw [if_neg hv]
    show (if v = "" then some [] else addrLoop E (E.getaddresses v)) = _
    rw [if_neg hv]
    exact addrLoop_eq E (E.getaddresses v) h

/-- Claim C8 counterexample: the header value `"é@example.com"` splits
into one pair whose address survives trimming, so the claim demands a
returned formatted entry; instead `formataddr` raises on the non-ASCII
address and `parse_addr_list` propagates the exception. -/
theorem counterexample_C8 :
    pyEnv0.getaddresses "é@example.com" = [("", "é@example.com")] ∧
    pyStripStr "é@example.com" ≠ "" ∧
    parse_addr_list pyEnv0 (some "é@example.com") = none := by
  refine ⟨by decide, by decide, by decide⟩

theorem claim_C8_witness :
    parse_addr_list pyEnv0 (some "Alice <alice@example.com>") =
      some (if ("Alice <alice@example.com>" : String) = "" then [] else
        (pyEnv0.getaddresses "Alice <alice@example.com>").filterMap (fun p =>
          if pyStripStr p.2 = "" then none
          else (formataddr pyEnv0 (pyStripStr (decode_header_str pyEnv0 (some p.1)))
            (pyStripStr p.2)).map pyStripStr)) :=
  (claim_C8_addr_list pyEnv0 "Alice <alice@example.com>" (by decide)).1
